import Mathlib

/-
  Verification of the screenplay parser in src/format_parsers.py
  (entry point parse_screenplay).  Python strings are modelled over
  ASCII by Lean String/List Char; Python floats by ℚ; Python sets of
  strings by insertion-ordered duplicate-free lists, with the
  unspecified iteration order of list(set) abstracted by an explicit
  permutation parameter ord.
-/

namespace Slate

/-! ### Character classes (ASCII model of Python str methods and re classes) -/

def isSpacePy (c : Char) : Bool :=
  c = ' ' || c = Char.ofNat 9 || c = Char.ofNat 10 || c = Char.ofNat 13 ||
  c = Char.ofNat 11 || c = Char.ofNat 12

def isDigitPy (c : Char) : Bool := decide ('0' ≤ c ∧ c ≤ '9')

def isUpperAZ (c : Char) : Bool := decide ('A' ≤ c ∧ c ≤ 'Z')

def isLowerAZ (c : Char) : Bool := decide ('a' ≤ c ∧ c ≤ 'z')

def isAlphaPy (c : Char) : Bool := isUpperAZ c || isLowerAZ c

def isWordChar (c : Char) : Bool := isAlphaPy c || isDigitPy c || c = '_'

def toUpperPy (c : Char) : Char :=
  if isLowerAZ c then Char.ofNat (c.toNat - 32) else c

/-! ### String helpers (str.strip, str.upper, `in`, split) -/

def pyStripL (l : List Char) : List Char :=
  ((l.dropWhile isSpacePy).reverse.dropWhile isSpacePy).reverse

def pyStrip (s : String) : String := String.mk (pyStripL s.data)

def pyUpper (s : String) : String := String.mk (s.data.map toUpperPy)

/-- Python substring test `pat in l`. -/
def containsSub (l : List Char) (pat : List Char) : Bool :=
  match l with
  | [] => pat.isEmpty
  | c :: t => pat.isPrefixOf (c :: t) || containsSub t pat

/-- Python script.split(ASCII newline): keeps empty segments. -/
def splitNL : List Char → List (List Char)
  | [] => [[]]
  | c :: t =>
    match splitNL t with
    | [] => [[]]
    | seg :: rest =>
      if c = Char.ofNat 10 then [] :: seg :: rest else (c :: seg) :: rest

def splitNLS (s : String) : List String := (splitNL s.data).map String.mk

/-- Length of Python str.split() (whitespace word count). -/
def countWords : Bool → List Char → Nat
  | _, [] => 0
  | inw, c :: t =>
    if isSpacePy c then countWords false t
    else (if inw then 0 else 1) + countWords true t

def wordCount (s : String) : Nat := countWords false s.data

def alphaCount (s : String) : Nat := s.data.countP (fun c => isAlphaPy c)

/-! ### re.sub of non-greedy parenthetical groups, and re.search of a group -/

/-- Scanner for re.sub of the non-greedy parenthesised-group pattern:
in skip mode the characters up to and including the nearest closing
bracket are dropped; an opening bracket enters skip mode exactly when
a closing bracket occurs later, as in the backtracking matcher. -/
def rpAux : Bool → List Char → List Char
  | _, [] => []
  | true, c :: t => if c = ')' then rpAux false t else rpAux true t
  | false, c :: t =>
    if c = '(' && t.contains ')' then rpAux true t else c :: rpAux false t

/-- re.sub removing every non-greedy parenthesised group. -/
def removeParensL (l : List Char) : List Char := rpAux false l

/-- re.search of the group pattern: the content of the first opening
bracket followed somewhere later by a closing bracket (non-greedy). -/
def searchParenL : List Char → Option (List Char)
  | [] => none
  | c :: t =>
    if c = '(' && t.contains ')' then some (t.takeWhile (fun d => !(d = ')')))
    else searchParenL t

/-! ### re word-boundary search for a literal word -/

def isWordOpt : Option Char → Bool
  | none => false
  | some c => isWordChar c

/-- Match the literal word at the current position, with a word boundary
required on each side; prev is the character just before the position. -/
def wbMatchAt (word : List Char) (prev : Option Char) (s : List Char) : Bool :=
  word.isPrefixOf s &&
  (match word.head? with
   | none => true
   | some w0 => !(isWordOpt prev == isWordChar w0)) &&
  (match word.getLast? with
   | none => true
   | some wl => !(isWordChar wl == isWordOpt ((s.drop word.length).head?)))

def wbSearch (word : List Char) : Option Char → List Char → Bool
  | prev, [] => wbMatchAt word prev []
  | prev, c :: t => wbMatchAt word prev (c :: t) || wbSearch word (some c) t

/-- re.search of a literal word bracketed by word boundaries. -/
def wbSearchTop (word text : List Char) : Bool := wbSearch word none text

/-! ### Configuration data of parse_screenplay -/

/-- The string CONT followed by an apostrophe and D (built from code
points to keep the source ASCII-plain). -/
def contD : String := String.mk (['C', 'O', 'N', 'T', Char.ofNat 39, 'D'])

/-- BLOCKED_WORDS as Python evaluates the literal.  Note the adjacent
string literals at the end of the technical-directions block: Python
concatenates them into the single member AWAIT INSTRUCTIONSPRESENT, so
the word PRESENT on its own is not a member. -/
def BLOCKED_WORDS : List String :=
  [("INT"), ("EXT"), ("CUT"), ("FADE"), ("DISSOLVE"), ("VOICE"), ("TITLE"),
   ("TO:"), ("ANGLE"), ("TITLE"), ("OVER"), ("BY"), ("END"), contD,
   ("THE END"), ("SCENE"), ("CONTINUED"), ("TRANSITION"), ("FLASHBACK"),
   ("CREDITS"), ("CREDIT"), ("SCRIPT"), ("FADE IN"), ("FADE OUT"),
   ("DISSOLVE TO"), ("CUT TO"), ("SMASH CUT"), ("INTERCUT"), ("SUPER"),
   ("MONTAGE"), ("SERIES OF SHOTS"), ("BACK TO SCENE"), ("PRELAP"),
   ("TREATMENT"), ("SCREENPLAY"),
   ("ANGLE ON"), ("CLOSE ON"), ("CLOSE UP"), ("WIDE ON"), ("PAN TO"),
   ("TRACK"), ("CAMERA"), ("DOLLY"), ("SLOW MOTION"), ("TIME LAPSE"),
   ("AERIAL VIEW"), ("POV"), ("POINT OF VIEW"), ("SPLIT SCREEN"),
   ("MUSIC"), ("SOUND"), ("BLACK"), ("BLACKNESS"), ("DARKNESS"),
   ("LIGHT"), ("HOLD"), ("CONTINUOUS"), ("TRACKING"), ("MOVING"),
   ("FOLLOWING"), ("BACK TO"), ("SAME TIME"), ("LATER"), ("FLASHBACK"),
   ("FLASH CUT"), ("BLUR"), ("FOCUS"), ("FOREGROUND"), ("BACKGROUND"),
   ("OPENING"), ("CLOSING"), ("PREVIOUSLY"), ("SUBTITLE"), ("MESSAGE"),
   ("WE SEE"), ("WE HEAR"), ("SERIES OF"), ("ESTABLISHING"), ("SHOT OF"),
   ("DREAM SEQUENCE"), ("AWAIT INSTRUCTIONSPRESENT"),
   ("PRESENTS"), ("PRODUCTION"), ("PRODUCED"), ("DIRECTED"), ("WRITTEN"),
   ("STARRING"), ("CAST"), ("CREW"), ("PRODUCER"), ("DIRECTOR"),
   ("WRITER"), ("PRODUCTIONS"), ("PICTURES"), ("STUDIO"), ("PRESENTS"),
   ("SUPER"), ("CHYRON"), ("TITLE CARD"),
   ("NOTE"), ("IMPORTANT"), ("WARNING"), ("CAUTION"), ("NOTICE"),
   ("ATTENTION"), ("HELLO"), ("HEY"), ("YES"), ("NO"), ("WAIT"),
   ("STOP"), ("GO"), ("LOOK"), ("LISTEN")]

def TECHNICAL_PHRASES : List String :=
  [("WIDE ON"), ("ANGLE ON"), ("CUT TO"), ("FADE IN"), ("FADE OUT"),
   ("DISSOLVE TO"), ("SMASH CUT"), ("PRELAP"), ("HOLD IN"), ("BACK TO"),
   ("CLOSE ON"), ("CLOSE UP"), ("PAN TO"), ("TRACK TO"), ("DOLLY IN"),
   ("SLOW MOTION"), ("TIME LAPSE"), ("AERIAL VIEW"), ("POINT OF VIEW"),
   ("SPLIT SCREEN"), ("MONTAGE"), ("SERIES OF"), ("FOLLOWING"),
   ("SAME TIME"), ("LATER"), ("CONTINUOUS"), ("PREVIOUSLY"), ("WE SEE"),
   ("WE HEAR"), ("ANGLE OF"), ("VIEW OF"), ("IN BLACK"), ("SHOT OF"),
   ("DREAM SEQUENCE")]

/-- The exact-equality exclusion list in is_character_name. -/
def GENERIC_EXCLUSIONS : List String :=
  [("MUSIC"), ("SOUND"), ("BLACK"), ("CONTINUOUS"), ("SAME"), ("LATER"),
   ("INSTRUCTIONS"), ("AWAIT"), ("GATHER"), ("HOLD"), ("PRESENTS")]

/-- The substring exclusion terms in is_character_name. -/
def TERM_EXCLUSIONS : List String :=
  [("PRESENTS"), ("IN BLACK"), ("PRODUCTION"), ("MUSIC"), ("SOUND"),
   ("FADE"), ("CUT"), ("DISSOLVE"), ("TRACK"), ("PAN"), ("WIDE")]

/-! ### The two compiled regex patterns -/

/-- The alternation INT. | EXT. | INT/EXT. | INT/EXT of scene_pattern. -/
def sceneTagMatch (l : List Char) : Bool :=
  (("INT.").data).isPrefixOf l || (("EXT.").data).isPrefixOf l ||
  (("INT/EXT.").data).isPrefixOf l || (("INT/EXT").data).isPrefixOf l

/-- re.match of scene_pattern: optional leading whitespace, an optional
scene number made of digits and a full stop with optional whitespace,
then one of the four tags.  Case-sensitive, exactly as compiled. -/
def sceneMatchL (l : List Char) : Bool :=
  let s1 := l.dropWhile isSpacePy
  sceneTagMatch s1 ||
    (!((s1.takeWhile isDigitPy).isEmpty) &&
      (match s1.dropWhile isDigitPy with
       | c :: r2 => c = '.' && sceneTagMatch (r2.dropWhile isSpacePy)
       | [] => false))

def sceneMatchS (s : String) : Bool := sceneMatchL s.data

/-- re.match of character_pattern, an anchored run of capital letters
and whitespace of length at least two starting with a capital. -/
def charPatternMatchL : List Char → Bool
  | [] => false
  | c :: t => isUpperAZ c && !(t.isEmpty) && t.all (fun d => isUpperAZ d || isSpacePy d)

def charPatternMatchS (s : String) : Bool := charPatternMatchL s.data

/-! ### is_character_name and normalize_character_name -/

/-- normalize_character_name: parentheticals removed, then stripped
(the alias table in the source is empty). -/
def normalizeCharacterName (name : String) : String :=
  String.mk (pyStripL (removeParensL name.data))

/-- The blocked-word rejection loop: a blocked word rejects when it is
a substring and is either the whole string or a whole-word occurrence. -/
def blockedHit (up : String) : Bool :=
  BLOCKED_WORDS.any (fun w =>
    containsSub up.data w.data && (w == up || wbSearchTop w.data up.data))

def techPhraseHit (clean : String) : Bool :=
  TECHNICAL_PHRASES.any (fun ph =>
    (ph.data).isPrefixOf clean.data || (ph.data).isSuffixOf clean.data ||
    containsSub clean.data ph.data)

def termHit (clean : String) : Bool :=
  TERM_EXCLUSIONS.any (fun tm => containsSub clean.data tm.data)

/-- The case check of is_character_name: the candidate with
parentheticals removed and stripped must match character_pattern. -/
def caseCheckPass (stripped : String) : Bool :=
  charPatternMatchS (String.mk (pyStripL (removeParensL (pyStrip stripped).data)))

/-- is_character_name from format_parsers.py: each conjunct is one of
the sequential early-return rejections of the source. -/
def isCharacterName (line : String) : Bool :=
  let stripped := pyStrip line
  let up := pyUpper stripped
  let base := String.mk (pyStripL (removeParensL stripped.data))
  decide (wordCount stripped ≤ 5) &&
  !(blockedHit up) &&
  decide (2 ≤ alphaCount stripped) &&
  charPatternMatchL base.data &&
  !(base.data.isEmpty) &&
  !(sceneMatchL base.data) &&
  !(techPhraseHit base) &&
  !(GENERIC_EXCLUSIONS.any (fun g => g == base)) &&
  !(termHit base)

/-! ### extract_time -/

/-- Direct lookup in the time_mapping dictionary. -/
def timeDirect (tp : String) : Option String :=
  if tp = ("MORNING") then some ("MORNING")
  else if tp = ("DAY") then some ("DAY")
  else if tp = ("AFTERNOON") then some ("AFTERNOON")
  else if tp = ("EVENING") then some ("EVENING")
  else if tp = ("NIGHT") then some ("NIGHT")
  else if tp = ("DAWN") then some ("DAWN")
  else if tp = ("DUSK") then some ("DUSK")
  else if tp = ("CONTINUOUS") then some ("CONTINUOUS")
  else if tp = ("LATER") then some ("LATER")
  else if tp = ("MOMENTS LATER") then some ("MOMENTS_LATER")
  else if tp = ("SAME TIME") then some ("SAME_TIME")
  else none

/-- The variation handling shared by both branches of extract_time. -/
def timeVariations (tp : String) : Option String :=
  if containsSub tp.data (("CONT").data) || tp = contD then some ("CONTINUOUS")
  else if containsSub tp.data (("LATER").data) then
    (if containsSub tp.data (("MOMENTS").data) then some ("MOMENTS_LATER")
     else some ("LATER"))
  else if containsSub tp.data (("SAME").data) && containsSub tp.data (("TIME").data) then
    some ("SAME_TIME")
  else none

def resolveTimePart (tp : String) : Option String :=
  match timeDirect tp with
  | some v => some v
  | none => timeVariations tp

/-- The parenthetical group search of extract_time, including its
membership guards on both bracket characters. -/
def parenGroupS (text : String) : Option String :=
  if text.data.contains '(' && text.data.contains ')' then
    match searchParenL text.data with
    | some content => some (String.mk content)
    | none => none
  else none

/-- The text after the first dash (split with maxsplit 1, second part). -/
def afterDashS (text : String) : String :=
  String.mk ((text.data.dropWhile (fun c => !(c = '-'))).drop 1)

/-- extract_time: parenthetical content first, then the dash suffix
with parentheticals removed, else UNKNOWN. -/
def extractTime (text : String) : String :=
  let parenRes : Option String :=
    match parenGroupS text with
    | some content => resolveTimePart (pyUpper (pyStrip content))
    | none => none
  match parenRes with
  | some v => v
  | none =>
    if text.data.contains '-' then
      let tp0 := pyUpper (pyStrip (afterDashS text))
      let tp := pyStrip (String.mk (removeParensL tp0.data))
      match resolveTimePart tp with
      | some v => v
      | none => ("UNKNOWN")
    else ("UNKNOWN")

/-! ### Page counting and Python rounding -/

/-- Python round-half-to-even to an integer, on the rational model of
Python floats. -/
def pyRoundHalfEven (x : ℚ) : ℤ :=
  let n : ℤ := ⌊x⌋
  let r : ℚ := x - (n : ℚ)
  if r < 1 / 2 then n
  else if 1 / 2 < r then n + 1
  else if n % 2 = 0 then n else n + 1

/-- Python round(x, 2). -/
def round2 (q : ℚ) : ℚ := ((pyRoundHalfEven (q * 100) : ℤ) : ℚ) / 100

/-- One line of the tally loop of calculate_page_count: state is
(dialogue lines, action lines, in_dialogue). -/
def pageTally (st : Nat × Nat × Bool) (line : String) : Nat × Nat × Bool :=
  let stripped := pyStrip line
  if stripped.data.isEmpty then st
  else if charPatternMatchS stripped && !(sceneMatchS stripped) then
    (st.1 + 1, st.2.1, true)
  else if st.2.2 then (st.1 + 1, st.2.1, st.2.2)
  else (st.1, st.2.1 + 1, st.2.2)

/-- calculate_page_count with the 45 dialogue and 58 action lines per
page constants. -/
def calculatePageCount (sceneLines : List String) : ℚ :=
  let t := sceneLines.foldl pageTally (0, 0, false)
  round2 ((t.1 : ℚ) / 45 + (t.2.1 : ℚ) / 58)

/-! ### The scene record and the first pass -/

structure SceneR where
  scene_number : Nat
  type : String
  location : String
  time_of_day : String
  raw_heading : String
  characters : List String
  line_count : Nat
  page_count : ℚ
  start_page : ℚ
  end_page : ℚ
deriving DecidableEq, Repr

def defaultScene : SceneR :=
  { scene_number := 0, type := (""), location := (""), time_of_day := (""),
    raw_heading := (""), characters := [], line_count := 0,
    page_count := 0, start_page := 0, end_page := 0 }

instance : Inhabited SceneR := ⟨defaultScene⟩

/-- State of the first pass of parse_screenplay.  allCharacters,
currentCharacters model Python sets of strings as insertion-ordered
duplicate-free lists. -/
structure P1State where
  scenes : List SceneR
  sceneBuffers : List (List String)
  allCharacters : List String
  currentScene : Option SceneR
  currentCharacters : List String
  sceneBuffer : List String
  lineCount : Nat
  currentPageCount : ℚ
  inFirstScene : Bool
deriving DecidableEq

def initState : P1State :=
  { scenes := [], sceneBuffers := [], allCharacters := [],
    currentScene := none, currentCharacters := [], sceneBuffer := [],
    lineCount := 0, currentPageCount := 0, inFirstScene := false }

/-- Set insertion (Python set.add on the ordered-list model). -/
def insertUnique (l : List String) (s : String) : List String :=
  if l.contains s then l else l ++ [s]

/-- Finalizing the open scene: page metrics computed from the buffer,
the scene and its buffer appended, the page cursor advanced. -/
def finalizeScene (st : P1State) : P1State :=
  match st.currentScene with
  | none => st
  | some cs =>
    let pc := calculatePageCount st.sceneBuffer
    let cs2 := { cs with characters := st.currentCharacters,
                         line_count := st.lineCount,
                         page_count := pc,
                         start_page := st.currentPageCount,
                         end_page := st.currentPageCount + pc }
    { st with scenes := st.scenes ++ [cs2],
              sceneBuffers := st.sceneBuffers ++ [st.sceneBuffer],
              currentPageCount := st.currentPageCount + pc,
              sceneBuffer := [] }

/-- Scene-type classification from the heading. -/
def sceneTypeOf (locationText : String) : String :=
  let up := pyUpper locationText
  if containsSub up.data (("INT.").data) && !(containsSub up.data (("INT/EXT").data)) then
    ("INTERIOR")
  else if containsSub up.data (("EXT.").data) && !(containsSub up.data (("INT/EXT").data)) then
    ("EXTERIOR")
  else ("INTERIOR_EXTERIOR")

/-- re.match of a leading scene number followed by a full stop. -/
def startsNumDot (l : List Char) : Bool :=
  !((l.takeWhile isDigitPy).isEmpty) &&
  (match l.dropWhile isDigitPy with
   | c :: _ => c = '.'
   | [] => false)

/-- re.sub removing the leading scene number, stop and whitespace. -/
def stripNumDot (l : List Char) : List Char :=
  ((l.dropWhile isDigitPy).drop 1).dropWhile isSpacePy

/-- re.sub removing the leading INT/EXT tag and following whitespace;
the alternatives are tried in the order compiled in the source. -/
def stripSceneTag (l : List Char) : List Char :=
  if (("INT.").data).isPrefixOf l then (l.drop 4).dropWhile isSpacePy
  else if (("EXT.").data).isPrefixOf l then (l.drop 4).dropWhile isSpacePy
  else if (("INT/EXT.").data).isPrefixOf l then (l.drop 8).dropWhile isSpacePy
  else if (("INT/EXT").data).isPrefixOf l then (l.drop 7).dropWhile isSpacePy
  else l

/-- Location cleanup: tag stripped, the part before the first dash
kept, parentheticals removed, stripped. -/
def cleanLocation (locationText : String) : String :=
  let l1 := stripSceneTag locationText.data
  let l2 := if l1.contains '-' then l1.takeWhile (fun c => !(c = '-')) else l1
  String.mk (pyStripL (removeParensL l2))

/-- One iteration of the first-pass loop of parse_screenplay. -/
def stepLine (st : P1State) (line : String) : P1State :=
  let stripped := pyStrip line
  let st1 :=
    if sceneMatchS stripped then
      let stA := finalizeScene st
      let locationText := stripped
      let sType := sceneTypeOf locationText
      let locationText2 :=
        if startsNumDot locationText.data then String.mk (stripNumDot locationText.data)
        else locationText
      let tod := extractTime locationText2
      let newScene : SceneR :=
        { scene_number := stA.scenes.length + 1, type := sType,
          location := cleanLocation locationText2, time_of_day := tod,
          raw_heading := stripped, characters := [], line_count := 0,
          page_count := 0, start_page := stA.currentPageCount, end_page := 0 }
      { stA with currentScene := some newScene, currentCharacters := [],
                 lineCount := 0, inFirstScene := true }
    else st
  let st2 :=
    match st1.currentScene with
    | some _ => { st1 with sceneBuffer := st1.sceneBuffer ++ [line],
                           lineCount := st1.lineCount + 1 }
    | none => st1
  if st2.inFirstScene && isCharacterName stripped then
    let cn := normalizeCharacterName stripped
    { st2 with currentCharacters := insertUnique st2.currentCharacters cn,
               allCharacters := insertUnique st2.allCharacters cn }
  else st2

/-- The whole first pass including the trailing finalize. -/
def pass1Final (lines : List String) : P1State :=
  finalizeScene (lines.foldl stepLine initState)

/-! ### Second pass and statistics -/

/-- Rebuilding a Python set from a list (set(...) of a generator). -/
def dedupInto (l : List String) : List String := l.foldl insertUnique []

/-- The normalized global character set after the first pass. -/
def allCharsNorm (lines : List String) : List String :=
  dedupInto ((pass1Final lines).allCharacters.map normalizeCharacterName)

/-- The second pass over one scene: start from the normalized scene
set, then add every known character with a whole-word occurrence in
the joined scene text. -/
def pass2Chars (characterList : List String) (chars : List String)
    (sceneText : String) : List String :=
  let sc0 := dedupInto (chars.map normalizeCharacterName)
  characterList.foldl
    (fun acc c =>
      if acc.contains c then acc
      else if wbSearchTop c.data sceneText.data then acc ++ [c]
      else acc)
    sc0

/-- Scenes after the second pass (characters field rewritten). -/
def scenesAfterPass2 (lines : List String) : List SceneR :=
  let st := pass1Final lines
  let characterList := allCharsNorm lines
  ((st.scenes.zip st.sceneBuffers).map
    (fun p =>
      { p.1 with characters :=
          pass2Chars characterList p.1.characters (String.intercalate (" ") p.2) }))

structure CharStat where
  name : String
  scene_appearances : List Nat
  total_lines : Nat
deriving DecidableEq, Repr

/-- Count of the dialogue lines following one cue occurrence: blank
lines are skipped, the next cue stops the count. -/
def dialogueAfter : List String → Nat
  | [] => 0
  | l :: rest =>
    let s := pyStrip l
    if s.data.isEmpty then dialogueAfter rest
    else if isCharacterName l then 0
    else 1 + dialogueAfter rest

/-- Approximate line count of one character over one scene buffer. -/
def lineCountInBuffer (character : String) : List String → Nat
  | [] => 0
  | l :: rest =>
    (if normalizeCharacterName (pyStrip l) = character then 1 + dialogueAfter rest
     else 0) + lineCountInBuffer character rest

/-- Lexicographic code-point comparison, Python str ordering. -/
def strLtL : List Char → List Char → Bool
  | [], [] => false
  | [], _ :: _ => true
  | _ :: _, [] => false
  | a :: s, b :: t => decide (a.toNat < b.toNat) || (a = b && strLtL s t)

def strLt (x y : String) : Bool := strLtL x.data y.data

/-- Ascending-order insertion for sorted(...) over strings. -/
def insertSorted (s : String) : List String → List String
  | [] => [s]
  | x :: t => if strLt s x then s :: x :: t else x :: insertSorted s t

def sortStrings (l : List String) : List String := l.foldr insertSorted []

/-- The per-character statistics computed after the second pass. -/
def characterStats (lines : List String) : List CharStat :=
  let scenes2 := scenesAfterPass2 lines
  let buffers := (pass1Final lines).sceneBuffers
  (sortStrings (allCharsNorm lines)).map
    (fun character =>
      { name := character,
        scene_appearances :=
          ((scenes2.enum.filter
            (fun p => (p.2.characters.map normalizeCharacterName).contains character)).map
            (fun p => p.1 + 1)),
        total_lines :=
          Nat.max 1 ((buffers.map (lineCountInBuffer character)).sum) })

structure Output where
  title : String
  scenes : List SceneR
  characters : List CharStat
  all_characters : List String
  total_pages : ℚ
deriving DecidableEq, Repr

/-- The parse of a list of lines with a canonical enumeration of each
scene character set. -/
def parseCoreLines (lines : List String) (title : String) : Output :=
  { title := title,
    scenes := scenesAfterPass2 lines,
    characters := characterStats lines,
    all_characters := sortStrings (allCharsNorm lines),
    total_pages := round2 (pass1Final lines).currentPageCount }

/-- The parse of a list of lines under a given set-iteration order ord
for the final list(...) of each scene character set: CPython's actual
order depends on string hashing, so it is abstracted as a permutation
applied to the canonical enumeration. -/
def parseLinesWith (ord : List String → List String) (lines : List String)
    (title : String) : Output :=
  let o := parseCoreLines lines title
  { o with scenes := o.scenes.map (fun sc => { sc with characters := ord sc.characters }) }

/-- parse_screenplay: split on newlines, then the two passes. -/
def parseWith (ord : List String → List String) (script title : String) : Output :=
  parseLinesWith ord (splitNLS script) title

/-- A set-iteration order is any permutation of the canonical list. -/
def Admissible (ord : List String → List String) : Prop :=
  ∀ l : List String, List.Perm (ord l) l

def idOrd : List String → List String := fun l => l

def revOrd : List String → List String := fun l => l.reverse

/-- The two-scene example screenplay of the specification. -/
def sampleScript : String :=
  "INT. KITCHEN - DAY\nJOHN\nHello there.\n\nEXT. PARK - NIGHT\nJANE\nGoodbye."

/-- A one-scene screenplay with two speaking characters. -/
def twoCueScript : String := "INT. A - DAY\nJOHN\nHi.\nJANE\nYo."

/-- Agreement of two scenes on every field except the order of the
characters list, which must only be a permutation. -/
def sceneAgree (s₁ s₂ : SceneR) : Prop :=
  s₁.scene_number = s₂.scene_number ∧ s₁.type = s₂.type ∧
  s₁.location = s₂.location ∧ s₁.time_of_day = s₂.time_of_day ∧
  s₁.raw_heading = s₂.raw_heading ∧ s₁.line_count = s₂.line_count ∧
  s₁.page_count = s₂.page_count ∧ s₁.start_page = s₂.start_page ∧
  s₁.end_page = s₂.end_page ∧ List.Perm s₁.characters s₂.characters

/-- Agreement of two parsed documents up to the ordering of each
scene's characters list. -/
def AgreeUpToSceneOrder (o₁ o₂ : Output) : Prop :=
  o₁.title = o₂.title ∧ o₁.characters = o₂.characters ∧
  o₁.all_characters = o₂.all_characters ∧ o₁.total_pages = o₂.total_pages ∧
  List.Forall₂ sceneAgree o₁.scenes o₂.scenes

/-- The tag list asserted by the specification for heading detection,
including the bare INT and EXT forms. -/
def claimTagMatch (l : List Char) : Bool :=
  (("INT.").data).isPrefixOf l || (("EXT.").data).isPrefixOf l ||
  (("INT/EXT.").data).isPrefixOf l || (("INT/EXT").data).isPrefixOf l ||
  (("INT").data).isPrefixOf l || (("EXT").data).isPrefixOf l

/-- The heading predicate exactly as the claim states it: after
leading whitespace and an optional numeric scene number with a full
stop, the line starts with one of the claimed tags, matched
case-insensitively. -/
def claimSceneHeading (s : String) : Bool :=
  let s1 := (s.data.map toUpperPy).dropWhile isSpacePy
  claimTagMatch s1 ||
    (!((s1.takeWhile isDigitPy).isEmpty) &&
      (match s1.dropWhile isDigitPy with
       | c :: r2 => c = '.' && claimTagMatch (r2.dropWhile isSpacePy)
       | [] => false))

/-- The amended heading predicate: case-sensitive and requiring the
full stop after INT and EXT (bare INT/EXT only in the slash form). -/
def amendedSceneHeading (s : String) : Bool :=
  let s1 := s.data.dropWhile isSpacePy
  sceneTagMatch s1 ||
    (startsNumDot s1 &&
      sceneTagMatch (((s1.dropWhile isDigitPy).drop 1).dropWhile isSpacePy))

/-- Number of scenes recorded plus one for an open scene. -/
def measureSt (st : P1State) : Nat :=
  st.scenes.length + (if st.currentScene.isSome then 1 else 0)

/-- Count of uppercase alphabetic characters, for the uppercase ratio
stated by the specification. -/
def upperCount (s : String) : Nat := s.data.countP (fun c => isUpperAZ c)

/-- The case rejection as the claim states it: two or more words and
an uppercase ratio below four fifths. -/
def claimCaseReject (s : String) : Prop :=
  2 ≤ wordCount s ∧ ((upperCount s : ℚ) / (alphaCount s : ℚ)) < 4 / 5

/-- Modelled from the spec: the scene duration estimator is absent
from src/ — models.py only declares the estimated_duration field — so
it is taken from §4.4 of the spec: max(0.5 minutes, page_count × 3
minutes per page). -/
def estimatedDurationMinutes (page_count : ℚ) : ℚ := max (1 / 2) (page_count * 3)

def sumPages (l : List SceneR) : ℚ := (l.map SceneR.page_count).sum

/-- The scenes starting at cumulative page p are contiguous: each
start is the running cursor and each end is start plus page count. -/
def chainFrom : ℚ → List SceneR → Prop
  | _, [] => True
  | p, s :: rest =>
    s.start_page = p ∧ s.end_page = p + s.page_count ∧ chainFrom s.end_page rest

/-- A value representable with two decimal places. -/
def IsCent (q : ℚ) : Prop := ∃ n : ℤ, q = (n : ℚ) / 100

/-- The invariant carried through the first pass, as a function of the
only fields it concerns: the scenes recorded so far chain from page
zero, the cursor equals their page sum, every page count has two
decimal places, and scenes pair with buffers. -/
def TripInv (t : List SceneR × ℚ × List (List String)) : Prop :=
  chainFrom 0 t.1 ∧ t.2.1 = sumPages t.1 ∧
  (∀ sc ∈ t.1, IsCent sc.page_count) ∧ t.1.length = t.2.2.length

def StInv (st : P1State) : Prop :=
  TripInv (st.scenes, st.currentPageCount, st.sceneBuffers)

/-- A name that normalization leaves unchanged. -/
def NormFix (c : String) : Prop := normalizeCharacterName c = c

/-- Every character name registered during the first pass is a
normalization fixed point. -/
def CharNormInv (st : P1State) : Prop :=
  (∀ c ∈ st.currentCharacters, NormFix c) ∧
  (∀ sc ∈ st.scenes, ∀ c ∈ sc.characters, NormFix c)

/-! ### Generic fold lemmas -/

theorem foldl_preserves {σ α : Type} (P : σ → Prop) (f : σ → α → σ)
    (hf : ∀ s a, P s → P (f s a)) :
    ∀ (l : List α) (s : σ), P s → P (l.foldl f s) := by
  intro l
  induction l with
  | nil => intro s hs; simpa using hs
  | cons a t ih => intro s hs; simpa using ih (f s a) (hf s a hs)

/-! ### Lines before the first heading leave the state untouched -/

theorem stepLine_id (st : P1State) (line : String)
    (hcs : st.currentScene = none) (hif : st.inFirstScene = false)
    (h : sceneMatchS (pyStrip line) = false) :
    stepLine st line = st := by
  simp [stepLine, h, hcs, hif]

theorem foldl_stepLine_id (lines : List String)
    (h : ∀ l ∈ lines, sceneMatchS (pyStrip l) = false) (st : P1State)
    (hcs : st.currentScene = none) (hif : st.inFirstScene = false) :
    lines.foldl stepLine st = st := by
  induction lines with
  | nil => rfl
  | cons a t ih =>
    have ha := h a (by simp)
    rw [List.foldl_cons, stepLine_id st a hcs hif ha]
    exact ih (fun l hl => h l (by simp [hl]))

theorem round2_zero : round2 0 = 0 := by
  unfold round2 pyRoundHalfEven
  norm_num

theorem pass1Final_initState_of_no_heading (lines : List String)
    (h : ∀ l ∈ lines, sceneMatchS (pyStrip l) = false) :
    pass1Final lines = initState := by
  unfold pass1Final
  rw [foldl_stepLine_id lines h initState rfl rfl]
  rfl

/-- C8: an input with no line matching the scene-heading pattern
(including the empty string) parses to the degenerate document with no
scenes, no characters and zero total pages, and no input text is
retained in the scene buffers. -/
theorem parse_no_heading_degenerate (ord : List String → List String)
    (script title : String)
    (h : ∀ l ∈ splitNLS script, sceneMatchS (pyStrip l) = false) :
    (parseWith ord script title).scenes = [] ∧
    (parseWith ord script title).all_characters = [] ∧
    (parseWith ord script title).characters = [] ∧
    (parseWith ord script title).total_pages = 0 ∧
    (pass1Final (splitNLS script)).sceneBuffers = [] ∧
    (pass1Final (splitNLS script)).sceneBuffer = [] := by
  have hp := pass1Final_initState_of_no_heading (splitNLS script) h
  refine ⟨?_, ?_, ?_, ?_, ?_, ?_⟩ <;>
    simp [parseWith, parseLinesWith, parseCoreLines, scenesAfterPass2,
          characterStats, allCharsNorm, hp, initState, dedupInto,
          sortStrings, round2_zero]

/-- C8 witness at a concrete headingless input. -/
theorem parse_no_heading_degenerate_witness :
    (∀ l ∈ splitNLS ("hello\nworld"), sceneMatchS (pyStrip l) = false) ∧
    (parseWith idOrd ("hello\nworld") ("T")).scenes = [] ∧
    (parseWith idOrd ("hello\nworld") ("T")).all_characters = [] ∧
    (parseWith idOrd ("hello\nworld") ("T")).total_pages = 0 := by
  have h : ∀ l ∈ splitNLS ("hello\nworld"), sceneMatchS (pyStrip l) = false := by
    decide
  have := parse_no_heading_degenerate idOrd ("hello\nworld") ("T") h
  exact ⟨h, this.1, this.2.1, this.2.2.2.1⟩

/-- C10: lines before the first scene heading are ignored entirely:
parsing a line list with a headingless prefix removed gives the same
document, so a cue-like line on a title page is never registered. -/
theorem preheading_lines_ignored (ord : List String → List String)
    (title : String) (pre rest : List String)
    (h : ∀ l ∈ pre, sceneMatchS (pyStrip l) = false) :
    parseLinesWith ord (pre ++ rest) title = parseLinesWith ord rest title := by
  have hp : pass1Final (pre ++ rest) = pass1Final rest := by
    unfold pass1Final
    rw [List.foldl_append, foldl_stepLine_id pre h initState rfl rfl]
  simp [parseLinesWith, parseCoreLines, scenesAfterPass2, characterStats,
        allCharsNorm, hp]

/-! ### Page-offset chain invariant (C1) -/

theorem round2_isCent (q : ℚ) : IsCent (round2 q) := ⟨pyRoundHalfEven (q * 100), rfl⟩

theorem isCent_zero : IsCent 0 := ⟨0, by norm_num⟩

theorem isCent_add {a b : ℚ} (ha : IsCent a) (hb : IsCent b) : IsCent (a + b) := by
  obtain ⟨m, hm⟩ := ha
  obtain ⟨n, hn⟩ := hb
  exact ⟨m + n, by rw [hm, hn, div_add_div_same]; push_cast; ring⟩

theorem pyRoundHalfEven_intCast (n : ℤ) : pyRoundHalfEven (n : ℚ) = n := by
  unfold pyRoundHalfEven
  norm_num

theorem round2_fix {q : ℚ} (h : IsCent q) : round2 q = q := by
  obtain ⟨n, hn⟩ := h
  have h100 : q * 100 = (n : ℚ) := by rw [hn]; field_simp
  unfold round2
  rw [h100, pyRoundHalfEven_intCast, hn]

theorem isCent_sumPages (l : List SceneR) (h : ∀ sc ∈ l, IsCent sc.page_count) :
    IsCent (sumPages l) := by
  induction l with
  | nil => exact isCent_zero
  | cons a t ih =>
    have : sumPages (a :: t) = a.page_count + sumPages t := by simp [sumPages]
    rw [this]
    exact isCent_add (h a (by simp)) (ih (fun sc hsc => h sc (by simp [hsc])))

theorem isCent_calculatePageCount (buf : List String) :
    IsCent (calculatePageCount buf) := by
  unfold calculatePageCount
  exact round2_isCent _

theorem sumPages_append_single (l : List SceneR) (s : SceneR) :
    sumPages (l ++ [s]) = sumPages l + s.page_count := by
  simp [sumPages]

theorem chainFrom_append (l : List SceneR) (s : SceneR) :
    ∀ p, chainFrom p l → s.start_page = p + sumPages l →
      s.end_page = s.start_page + s.page_count → chainFrom p (l ++ [s]) := by
  induction l with
  | nil =>
    intro p _ h1 h2
    have hs : s.start_page = p := by simpa [sumPages] using h1
    exact ⟨hs, by rw [h2, hs], trivial⟩
  | cons a t ih =>
    intro p hc h1 h2
    obtain ⟨ha1, ha2, ha3⟩ := hc
    refine ⟨ha1, ha2, ih a.end_page ha3 ?_ h2⟩
    rw [h1, ha2]
    simp [sumPages]
    ring

theorem chainFrom_getD_end (l : List SceneR) :
    ∀ p, chainFrom p l → ∀ i, i < l.length →
      (l.getD i defaultScene).end_page =
        (l.getD i defaultScene).start_page + (l.getD i defaultScene).page_count := by
  induction l with
  | nil => intro p _ i hi; simp at hi
  | cons a t ih =>
    intro p hc i hi
    obtain ⟨ha1, ha2, ha3⟩ := hc
    cases i with
    | zero => simpa [ha1] using ha2
    | succ j =>
      have hj : j < t.length := by simpa using hi
      simpa using ih a.end_page ha3 j hj

theorem chainFrom_getD_zero (l : List SceneR) (p : ℚ) (hc : chainFrom p l)
    (h0 : 0 < l.length) : (l.getD 0 defaultScene).start_page = p := by
  cases l with
  | nil => simp at h0
  | cons a t => simpa using hc.1

theorem chainFrom_getD_succ (l : List SceneR) :
    ∀ p, chainFrom p l → ∀ i, i + 1 < l.length →
      (l.getD (i + 1) defaultScene).start_page = (l.getD i defaultScene).end_page := by
  induction l with
  | nil => intro p _ i hi; simp at hi
  | cons a t ih =>
    intro p hc i hi
    obtain ⟨ha1, ha2, ha3⟩ := hc
    cases i with
    | zero =>
      have h0 : 0 < t.length := by simpa using hi
      simpa using chainFrom_getD_zero t a.end_page ha3 h0
    | succ j =>
      have hj : j + 1 < t.length := by simpa using hi
      simpa using ih a.end_page ha3 j hj

theorem StInv_init : StInv initState :=
  ⟨trivial, by simp [initState, sumPages], by simp [initState], by simp [initState]⟩

theorem StInv_finalize (st : P1State) (h : StInv st) : StInv (finalizeScene st) := by
  obtain ⟨h1, h2, h3, h4⟩ := h
  dsimp only at h1 h2 h3 h4
  unfold StInv TripInv finalizeScene
  cases hcs : st.currentScene with
  | none => exact ⟨h1, h2, h3, h4⟩
  | some cs =>
    refine ⟨?_, ?_, ?_, ?_⟩
    · refine chainFrom_append st.scenes _ 0 h1 ?_ ?_
      · simpa using h2
      · simp
    · simp [sumPages_append_single, h2]
    · intro sc hsc
      rcases List.mem_append.mp hsc with hold | hnew
      · exact h3 sc hold
      · have he : sc = _ := List.mem_singleton.mp hnew
        rw [he]
        exact isCent_calculatePageCount st.sceneBuffer
    · simp [h4]

theorem stepLine_scenes_pages (st : P1State) (line : String) :
    ((stepLine st line).scenes, (stepLine st line).currentPageCount,
     (stepLine st line).sceneBuffers) =
      (if sceneMatchS (pyStrip line) = true then
        ((finalizeScene st).scenes, (finalizeScene st).currentPageCount,
         (finalizeScene st).sceneBuffers)
      else (st.scenes, st.currentPageCount, st.sceneBuffers)) := by
  unfold stepLine
  cases hI : sceneMatchS (pyStrip line) with
  | false =>
    simp only [hI, Bool.false_eq_true, if_false]
    cases hc : st.currentScene <;> simp [hc] <;> split <;> simp
  | true =>
    simp only [hI, if_true]
    split <;> simp

theorem StInv_step (st : P1State) (line : String) (h : StInv st) :
    StInv (stepLine st line) := by
  have hp := stepLine_scenes_pages st line
  have hgoal : StInv (stepLine st line) =
      TripInv ((stepLine st line).scenes, (stepLine st line).currentPageCount,
               (stepLine st line).sceneBuffers) := rfl
  rw [hgoal, hp]
  cases hI : sceneMatchS (pyStrip line) with
  | false => simpa using h
  | true =>
    simp only [if_true]
    exact StInv_finalize st h

theorem StInv_pass1Final (lines : List String) : StInv (pass1Final lines) := by
  unfold pass1Final
  exact StInv_finalize _
    (foldl_preserves StInv stepLine (fun s a hs => StInv_step s a hs) lines initState StInv_init)

theorem chainFrom_map_pairs {β : Type} (g : SceneR × β → SceneR)
    (hg : ∀ q, (g q).start_page = q.1.start_page ∧ (g q).end_page = q.1.end_page ∧
      (g q).page_count = q.1.page_count) :
    ∀ (zl : List (SceneR × β)) (p : ℚ), chainFrom p (zl.map Prod.fst) →
      chainFrom p (zl.map g) := by
  intro zl
  induction zl with
  | nil => intro p _; trivial
  | cons q t ih =>
    intro p hc
    obtain ⟨hq1, hq2, hq3⟩ := hc
    obtain ⟨hg1, hg2, hg3⟩ := hg q
    refine ⟨by rw [hg1]; exact hq1, by rw [hg2, hg3]; exact hq2, ?_⟩
    rw [hg2]
    exact ih q.1.end_page hq3

theorem sumPages_map_pairs {β : Type} (g : SceneR × β → SceneR)
    (hg : ∀ q, (g q).page_count = q.1.page_count) (zl : List (SceneR × β)) :
    sumPages (zl.map g) = sumPages (zl.map Prod.fst) := by
  induction zl with
  | nil => rfl
  | cons q t ih =>
    simp only [List.map_cons, sumPages, List.sum_cons] at *
    rw [hg q, ih]

theorem chainFrom_map_preserve (f : SceneR → SceneR)
    (hf : ∀ sc, (f sc).start_page = sc.start_page ∧ (f sc).end_page = sc.end_page ∧
      (f sc).page_count = sc.page_count) :
    ∀ (l : List SceneR) (p : ℚ), chainFrom p l → chainFrom p (l.map f) := by
  intro l
  induction l with
  | nil => intro p _; trivial
  | cons a t ih =>
    intro p hc
    obtain ⟨ha1, ha2, ha3⟩ := hc
    obtain ⟨hf1, hf2, hf3⟩ := hf a
    refine ⟨by rw [hf1]; exact ha1, by rw [hf2, hf3]; exact ha2, ?_⟩
    rw [hf2]
    exact ih a.end_page ha3

theorem sumPages_map_preserve (f : SceneR → SceneR)
    (hf : ∀ sc, (f sc).page_count = sc.page_count) (l : List SceneR) :
    sumPages (l.map f) = sumPages l := by
  induction l with
  | nil => rfl
  | cons a t ih =>
    simp only [List.map_cons, sumPages, List.sum_cons] at *
    rw [hf a, ih]

/-- C1: the scene page offsets of every parsed document chain: the
first scene starts at page 0, each scene ends at its start plus its
page count, each later scene starts where the previous one ends, and
the document total equals the sum of the scene page counts exactly
(the final two-decimal rounding fixes a sum of two-decimal values). -/
theorem parse_page_offsets (ord : List String → List String) (script title : String) :
    (0 < (parseWith ord script title).scenes.length →
      ((parseWith ord script title).scenes.getD 0 defaultScene).start_page = 0) ∧
    (∀ i, i < (parseWith ord script title).scenes.length →
      ((parseWith ord script title).scenes.getD i defaultScene).end_page =
        ((parseWith ord script title).scenes.getD i defaultScene).start_page +
        ((parseWith ord script title).scenes.getD i defaultScene).page_count) ∧
    (∀ i, i + 1 < (parseWith ord script title).scenes.length →
      ((parseWith ord script title).scenes.getD (i + 1) defaultScene).start_page =
        ((parseWith ord script title).scenes.getD i defaultScene).end_page) ∧
    (parseWith ord script title).total_pages =
      ((parseWith ord script title).scenes.map SceneR.page_count).sum := by
  obtain ⟨h1, h2, h3, h4⟩ := StInv_pass1Final (splitNLS script)
  dsimp only at h1 h2 h3 h4
  have hzfst : (((pass1Final (splitNLS script)).scenes.zip
      (pass1Final (splitNLS script)).sceneBuffers).map Prod.fst) =
      (pass1Final (splitNLS script)).scenes :=
    List.map_fst_zip _ _ (le_of_eq h4)
  have hchain2 : chainFrom 0 (scenesAfterPass2 (splitNLS script)) := by
    unfold scenesAfterPass2
    dsimp only
    refine chainFrom_map_pairs _ ?_ _ 0 ?_
    · intro q
      exact ⟨rfl, rfl, rfl⟩
    · rw [hzfst]
      exact h1
  have hsum2 : sumPages (scenesAfterPass2 (splitNLS script)) =
      sumPages (pass1Final (splitNLS script)).scenes := by
    unfold scenesAfterPass2
    dsimp only
    refine (sumPages_map_pairs _ ?_ _).trans ?_
    · intro q
      rfl
    · rw [hzfst]
  have hscenes : (parseWith ord script title).scenes =
      (scenesAfterPass2 (splitNLS script)).map
        (fun sc => { sc with characters := ord sc.characters }) := rfl
  have hchainOut : chainFrom 0 (parseWith ord script title).scenes := by
    rw [hscenes]
    refine chainFrom_map_preserve _ ?_ _ 0 hchain2
    intro sc
    exact ⟨rfl, rfl, rfl⟩
  have hsumOut : sumPages (parseWith ord script title).scenes =
      sumPages (pass1Final (splitNLS script)).scenes := by
    rw [hscenes]
    refine (sumPages_map_preserve _ ?_ _).trans hsum2
    intro sc
    rfl
  refine ⟨?_, ?_, ?_, ?_⟩
  · intro h0
    exact chainFrom_getD_zero _ 0 hchainOut h0
  · intro i hi
    exact chainFrom_getD_end _ 0 hchainOut i hi
  · intro i hi
    exact chainFrom_getD_succ _ 0 hchainOut i hi
  · have htot : (parseWith ord script title).total_pages =
        round2 (pass1Final (splitNLS script)).currentPageCount := rfl
    rw [htot, h2, round2_fix (isCent_sumPages _ h3)]
    exact hsumOut.symm

/-- C1 witness at the two-scene sample script. -/
theorem parse_page_offsets_witness :
    0 < (parseWith idOrd sampleScript ("T")).scenes.length ∧
    ((parseWith idOrd sampleScript ("T")).scenes.getD 0 defaultScene).start_page = 0 ∧
    ((parseWith idOrd sampleScript ("T")).scenes.getD 1 defaultScene).start_page =
      ((parseWith idOrd sampleScript ("T")).scenes.getD 0 defaultScene).end_page ∧
    ((parseWith idOrd sampleScript ("T")).scenes.getD 0 defaultScene).end_page =
      ((parseWith idOrd sampleScript ("T")).scenes.getD 0 defaultScene).start_page +
      ((parseWith idOrd sampleScript ("T")).scenes.getD 0 defaultScene).page_count ∧
    (parseWith idOrd sampleScript ("T")).total_pages =
      ((parseWith idOrd sampleScript ("T")).scenes.map SceneR.page_count).sum := by
  have h := parse_page_offsets idOrd sampleScript ("T")
  exact ⟨by decide, h.1 (by decide), h.2.2.1 0 (by decide), h.2.1 0 (by decide), h.2.2.2⟩

theorem admissible_idOrd : Admissible idOrd := fun l => List.Perm.refl l

theorem admissible_revOrd : Admissible revOrd := fun l => List.reverse_perm l

theorem admissible_fix_singleton (ord : List String → List String)
    (h : Admissible ord) (a : String) : ord [a] = [a] :=
  List.perm_singleton.mp (h [a])

/-- C3: the two-scene sample input parses to exactly the specified
scenes, characters and sorted character list, for every admissible
set-iteration order. -/
theorem scenario_two_scenes (ord : List String → List String) (h : Admissible ord) :
    (parseWith ord sampleScript ("T")).scenes.map
        (fun sc => (sc.type, sc.location, sc.time_of_day, sc.characters)) =
      [(("INTERIOR"), ("KITCHEN"), ("DAY"), [("JOHN")]),
       (("EXTERIOR"), ("PARK"), ("NIGHT"), [("JANE")])] ∧
    (parseWith ord sampleScript ("T")).all_characters = [("JANE"), ("JOHN")] := by
  have hchars : (scenesAfterPass2 (splitNLS sampleScript)).map SceneR.characters =
      [[("JOHN")], [("JANE")]] := by decide
  have hmem : ∀ sc ∈ scenesAfterPass2 (splitNLS sampleScript),
      sc.characters = [("JOHN")] ∨ sc.characters = [("JANE")] := by
    intro sc hsc
    have hin : sc.characters ∈ (scenesAfterPass2 (splitNLS sampleScript)).map SceneR.characters :=
      List.mem_map_of_mem _ hsc
    rw [hchars] at hin
    simpa using hin
  constructor
  · have hrw : (parseWith ord sampleScript ("T")).scenes =
        (scenesAfterPass2 (splitNLS sampleScript)).map
          (fun sc => { sc with characters := ord sc.characters }) := rfl
    rw [hrw, List.map_map]
    have hcongr : ∀ sc ∈ scenesAfterPass2 (splitNLS sampleScript),
        ((fun sc => (sc.type, sc.location, sc.time_of_day, sc.characters)) ∘
          (fun sc => { sc with characters := ord sc.characters })) sc =
        (sc.type, sc.location, sc.time_of_day, sc.characters) := by
      intro sc hsc
      have : ord sc.characters = sc.characters := by
        rcases hmem sc hsc with hx | hx <;> rw [hx, admissible_fix_singleton ord h]
      simp [Function.comp, this]
    rw [List.map_congr_left hcongr]
    decide
  · have hall : (parseCoreLines (splitNLS sampleScript) ("T")).all_characters =
        [("JANE"), ("JOHN")] := by decide
    exact hall

/-- C3 witness at the identity iteration order. -/
theorem scenario_two_scenes_witness :
    Admissible idOrd ∧
    (parseWith idOrd sampleScript ("T")).scenes.map
        (fun sc => (sc.type, sc.location, sc.time_of_day, sc.characters)) =
      [(("INTERIOR"), ("KITCHEN"), ("DAY"), [("JOHN")]),
       (("EXTERIOR"), ("PARK"), ("NIGHT"), [("JANE")])] ∧
    (parseWith idOrd sampleScript ("T")).all_characters = [("JANE"), ("JOHN")] :=
  ⟨admissible_idOrd, (scenario_two_scenes idOrd admissible_idOrd).1,
   (scenario_two_scenes idOrd admissible_idOrd).2⟩

theorem forall₂_map_same {α β : Type} (f g : α → β) (R : β → β → Prop)
    (l : List α) (h : ∀ a ∈ l, R (f a) (g a)) :
    List.Forall₂ R (l.map f) (l.map g) := by
  induction l with
  | nil => exact List.Forall₂.nil
  | cons a t ih =>
    exact List.Forall₂.cons (h a (by simp)) (ih (fun x hx => h x (by simp [hx])))

/-- C2 counterexample: two admissible set-iteration orders (two runs
of the interpreter with different string hash seeds) give different
documents on the same input: the characters list of the single scene
comes out in a different order. -/
theorem parse_set_order_counterexample :
    Admissible idOrd ∧ Admissible revOrd ∧
    (parseWith idOrd twoCueScript ("T")).scenes.map SceneR.characters ≠
      (parseWith revOrd twoCueScript ("T")).scenes.map SceneR.characters ∧
    parseWith idOrd twoCueScript ("T") ≠ parseWith revOrd twoCueScript ("T") := by
  refine ⟨admissible_idOrd, admissible_revOrd, by decide, ?_⟩
  intro hEq
  have hproj := congrArg (fun o => o.scenes.map SceneR.characters) hEq
  exact absurd hproj (by decide)

/-- C2 amended: the parse is deterministic up to the unspecified
iteration order of each scene's character set: any two admissible
orders give documents agreeing on the title, the statistics, the
sorted character list, the total pages and every scene field, with the
scene character lists equal as sets (permutations); the remaining
ordering is fixed only once the interpreter hash seed is fixed. -/
theorem parse_deterministic_up_to_scene_order
    (ord₁ ord₂ : List String → List String)
    (h₁ : Admissible ord₁) (h₂ : Admissible ord₂) (script title : String) :
    AgreeUpToSceneOrder (parseWith ord₁ script title) (parseWith ord₂ script title) := by
  refine ⟨rfl, rfl, rfl, rfl, ?_⟩
  have hs₁ : (parseWith ord₁ script title).scenes =
      (scenesAfterPass2 (splitNLS script)).map
        (fun sc => { sc with characters := ord₁ sc.characters }) := rfl
  have hs₂ : (parseWith ord₂ script title).scenes =
      (scenesAfterPass2 (splitNLS script)).map
        (fun sc => { sc with characters := ord₂ sc.characters }) := rfl
  rw [hs₁, hs₂]
  refine forall₂_map_same _ _ _ _ ?_
  intro sc hsc
  refine ⟨rfl, rfl, rfl, rfl, rfl, rfl, rfl, rfl, rfl, ?_⟩
  exact (h₁ sc.characters).trans (h₂ sc.characters).symm

/-- C2 amended witness at the identity and reversal orders. -/
theorem parse_deterministic_up_to_scene_order_witness :
    Admissible idOrd ∧ Admissible revOrd ∧
    AgreeUpToSceneOrder (parseWith idOrd twoCueScript ("T"))
      (parseWith revOrd twoCueScript ("T")) :=
  ⟨admissible_idOrd, admissible_revOrd,
   parse_deterministic_up_to_scene_order idOrd revOrd admissible_idOrd
     admissible_revOrd twoCueScript ("T")⟩

/-- C5 counterexample: a lowercase heading and a bare INT heading are
headings under the claimed case-insensitive rule but are not matched
by the compiled pattern, and the lowercase heading opens no scene. -/
theorem scene_heading_case_counterexample :
    claimSceneHeading (pyStrip ("int. kitchen")) = true ∧
    sceneMatchS (pyStrip ("int. kitchen")) = false ∧
    claimSceneHeading (pyStrip ("INT KITCHEN")) = true ∧
    sceneMatchS (pyStrip ("INT KITCHEN")) = false ∧
    (parseWith idOrd ("int. kitchen - day\nJOHN\nhi") ("T")).scenes.length = 0 := by
  decide

theorem measureSt_step (st : P1State) (line : String) :
    measureSt (stepLine st line) =
      measureSt st + (if sceneMatchS (pyStrip line) = true then 1 else 0) := by
  unfold measureSt stepLine
  cases hI : sceneMatchS (pyStrip line) with
  | false =>
    simp only [hI, Bool.false_eq_true, if_false]
    cases hc : st.currentScene <;> simp [hc] <;> split <;> simp [hc]
  | true =>
    simp only [hI, if_true]
    unfold finalizeScene
    cases hc : st.currentScene <;> simp [hc] <;> split <;> simp [hc]

theorem measureSt_foldl (lines : List String) :
    ∀ st : P1State, measureSt (lines.foldl stepLine st) =
      measureSt st + (lines.filter (fun l => sceneMatchS (pyStrip l))).length := by
  induction lines with
  | nil => intro st; simp
  | cons a t ih =>
    intro st
    rw [List.foldl_cons, ih (stepLine st a), measureSt_step st a]
    cases hI : sceneMatchS (pyStrip a)
    · simp [List.filter, hI]
    · simp [List.filter, hI]
      omega

theorem finalizeScene_scenes_length (st : P1State) :
    (finalizeScene st).scenes.length = measureSt st := by
  unfold finalizeScene measureSt
  cases hc : st.currentScene <;> simp [hc]

/-- C5 amended: heading classification is exactly the case-sensitive
tag test (INT., EXT., INT/EXT. or INT/EXT) after optional whitespace
and an optional numeric scene number with a full stop; consequently
the number of parsed scenes equals the number of lines so classified. -/
theorem scene_heading_characterization :
    (∀ s : String, sceneMatchS s = amendedSceneHeading s) ∧
    (∀ (ord : List String → List String) (script title : String),
      (parseWith ord script title).scenes.length =
        ((splitNLS script).filter (fun l => sceneMatchS (pyStrip l))).length) := by
  constructor
  · intro s
    unfold sceneMatchS sceneMatchL amendedSceneHeading startsNumDot
    cases hd : (s.data.dropWhile isSpacePy).dropWhile isDigitPy <;>
      cases he : ((s.data.dropWhile isSpacePy).takeWhile isDigitPy).isEmpty <;>
        simp [hd, he]
  · intro ord script title
    have h4 := (StInv_pass1Final (splitNLS script)).2.2.2
    dsimp only at h4
    have hlen : (parseWith ord script title).scenes.length =
        (pass1Final (splitNLS script)).scenes.length := by
      have hrw : (parseWith ord script title).scenes =
          (scenesAfterPass2 (splitNLS script)).map
            (fun sc => { sc with characters := ord sc.characters }) := rfl
      rw [hrw, List.length_map]
      unfold scenesAfterPass2
      dsimp only
      rw [List.length_map, List.length_zip, ← h4, Nat.min_self]
    rw [hlen]
    unfold pass1Final
    rw [finalizeScene_scenes_length, measureSt_foldl]
    simp [measureSt, initState]

/-- C6 counterexample: JOHN McCLANE has two words and an uppercase
ratio of ten elevenths, at least four fifths, so the claim exempts it
from case rejection; the code's case check nevertheless rejects it
(and the other rejection steps all pass), and the single word John,
which the claim says is never case-rejected, is rejected too. -/
theorem character_case_ratio_counterexample :
    wordCount ("JOHN McCLANE") = 2 ∧
    ¬ claimCaseReject ("JOHN McCLANE") ∧
    caseCheckPass ("JOHN McCLANE") = false ∧
    isCharacterName ("JOHN McCLANE") = false ∧
    blockedHit (pyUpper (pyStrip ("JOHN McCLANE"))) = false ∧
    wordCount ("JOHN McCLANE") ≤ 5 ∧ 2 ≤ alphaCount ("JOHN McCLANE") ∧
    caseCheckPass ("John") = false ∧ isCharacterName ("John") = false := by
  have hu : upperCount ("JOHN McCLANE") = 10 := by decide
  have ha : alphaCount ("JOHN McCLANE") = 11 := by decide
  refine ⟨by decide, ?_, by decide, by decide, by decide, by decide, by decide,
    by decide, by decide⟩
  intro hrej
  have := hrej.2
  rw [hu, ha] at this
  norm_num at this

/-- C6 amended: the case check of is_character_name is exactly the
anchored all-capitals pattern on the candidate with parentheticals
removed and stripped: first character an uppercase letter, length at
least two, every further character an uppercase letter or whitespace.
Any lowercase letter rejects regardless of word count; there is no
uppercase-ratio threshold and no single-word exemption. -/
theorem character_case_check_characterization :
    (∀ s : String, caseCheckPass s = false → isCharacterName s = false) ∧
    (∀ l : List Char, charPatternMatchL l = true ↔
      ∃ c t, l = c :: t ∧ isUpperAZ c = true ∧ t ≠ [] ∧
        ∀ d ∈ t, isUpperAZ d = true ∨ isSpacePy d = true) := by
  constructor
  · intro s h
    have h' : charPatternMatchL (pyStripL (removeParensL (pyStrip s).data)) = false := h
    unfold isCharacterName
    dsimp only
    rw [h']
    simp
  · intro l
    cases l with
    | nil => simp [charPatternMatchL]
    | cons c t =>
      constructor
      · intro h
        simp only [charPatternMatchL, Bool.and_eq_true, List.all_eq_true] at h
        refine ⟨c, t, rfl, h.1.1, ?_, ?_⟩
        · intro hnil
          rw [hnil] at h
          simpa using h.1.2
        · intro d hd
          have := h.2 d hd
          simpa using this
      · rintro ⟨c', t', heq, h1, h2, h3⟩
        injection heq with hc ht
        subst hc
        subst ht
        simp only [charPatternMatchL, Bool.and_eq_true, List.all_eq_true]
        refine ⟨⟨h1, ?_⟩, ?_⟩
        · cases t with
          | nil => exact absurd rfl h2
          | cons x xs => simp
        · intro d hd
          have := h3 d hd
          simpa using this

/-- C6 amended witness: the single word John fails the case check and
is rejected, and a concrete all-capitals candidate satisfies the
characterization. -/
theorem character_case_check_characterization_witness :
    isCharacterName ("John") = false ∧
    (∃ c t, (("AB").data) = c :: t ∧ isUpperAZ c = true ∧ t ≠ [] ∧
      ∀ d ∈ t, isUpperAZ d = true ∨ isSpacePy d = true) :=
  ⟨character_case_check_characterization.1 ("John") (by decide),
   (character_case_check_characterization.2 (("AB").data)).mp (by decide)⟩

/-- C7 counterexample: the parenthetical content DAYTIME contains the
vocabulary member DAY as a substring, so the claimed rule resolves the
heading to DAY, but extract_time returns UNKNOWN: the substring rule
exists only for the CONT, LATER and SAME TIME families. -/
theorem time_vocab_substring_counterexample :
    containsSub (("DAYTIME").data) (("DAY").data) = true ∧
    parenGroupS ("INT. ROOM (DAYTIME)") = some ("DAYTIME") ∧
    extractTime ("INT. ROOM (DAYTIME)") = ("UNKNOWN") := by
  decide

/-- C7 amended: a parenthetical whose cleaned content resolves takes
precedence over the dash suffix, and the plain vocabulary members
resolve only by exact equality: DAY is returned for a time part
exactly when that part is the string DAY. -/
theorem time_resolution_characterization :
    (∀ (text c v : String), parenGroupS text = some c →
      resolveTimePart (pyUpper (pyStrip c)) = some v → extractTime text = v) ∧
    (∀ tp : String, resolveTimePart tp = some ("DAY") ↔ tp = ("DAY")) := by
  constructor
  · intro text c v hc hv
    unfold extractTime
    rw [hc]
    dsimp only
    rw [hv]
  · intro tp
    constructor
    · intro h
      unfold resolveTimePart at h
      cases hd : timeDirect tp with
      | some v =>
        rw [hd] at h
        have hv : v = ("DAY") := by simpa using h
        subst hv
        unfold timeDirect at hd
        by_cases h1 : tp = ("MORNING")
        · rw [if_pos h1] at hd
          exact absurd (Option.some.inj hd) (by decide)
        rw [if_neg h1] at hd
        by_cases h2 : tp = ("DAY")
        · exact h2
        rw [if_neg h2] at hd
        by_cases h3 : tp = ("AFTERNOON")
        · rw [if_pos h3] at hd
          exact absurd (Option.some.inj hd) (by decide)
        rw [if_neg h3] at hd
        by_cases h4 : tp = ("EVENING")
        · rw [if_pos h4] at hd
          exact absurd (Option.some.inj hd) (by decide)
        rw [if_neg h4] at hd
        by_cases h5 : tp = ("NIGHT")
        · rw [if_pos h5] at hd
          exact absurd (Option.some.inj hd) (by decide)
        rw [if_neg h5] at hd
        by_cases h6 : tp = ("DAWN")
        · rw [if_pos h6] at hd
          exact absurd (Option.some.inj hd) (by decide)
        rw [if_neg h6] at hd
        by_cases h7 : tp = ("DUSK")
        · rw [if_pos h7] at hd
          exact absurd (Option.some.inj hd) (by decide)
        rw [if_neg h7] at hd
        by_cases h8 : tp = ("CONTINUOUS")
        · rw [if_pos h8] at hd
          exact absurd (Option.some.inj hd) (by decide)
        rw [if_neg h8] at hd
        by_cases h9 : tp = ("LATER")
        · rw [if_pos h9] at hd
          exact absurd (Option.some.inj hd) (by decide)
        rw [if_neg h9] at hd
        by_cases h10 : tp = ("MOMENTS LATER")
        · rw [if_pos h10] at hd
          exact absurd (Option.some.inj hd) (by decide)
        rw [if_neg h10] at hd
        by_cases h11 : tp = ("SAME TIME")
        · rw [if_pos h11] at hd
          exact absurd (Option.some.inj hd) (by decide)
        rw [if_neg h11] at hd
        exact absurd hd (by simp)
      | none =>
        rw [hd] at h
        unfold timeVariations at h
        cases hc1 : (containsSub tp.data (("CONT").data) || decide (tp = contD)) with
        | true =>
          simp [hc1] at h
        | false =>
          simp only [hc1, Bool.false_eq_true, if_false] at h
          cases hc2 : containsSub tp.data (("LATER").data) with
          | true =>
            simp only [hc2, if_true] at h
            cases hc3 : containsSub tp.data (("MOMENTS").data) with
            | true =>
              simp [hc3] at h
            | false =>
              simp [hc3] at h
          | false =>
            simp only [hc2, Bool.false_eq_true, if_false] at h
            cases hc4 : (containsSub tp.data (("SAME").data) &&
                containsSub tp.data (("TIME").data)) with
            | true =>
              simp [hc4] at h
            | false =>
              simp [hc4] at h
    · intro h
      subst h
      decide

/-- C7 amended witness: a resolving parenthetical beats the dash
suffix on a concrete heading carrying both. -/
theorem time_resolution_characterization_witness :
    extractTime ("INT. ROOM (DAY) - NIGHT") = ("DAY") ∧
    resolveTimePart ("DAY") = some ("DAY") :=
  ⟨time_resolution_characterization.1 ("INT. ROOM (DAY) - NIGHT") ("DAY") ("DAY")
      (by decide) (by decide),
   (time_resolution_characterization.2 ("DAY")).mpr rfl⟩

theorem round2_nonneg {q : ℚ} (h : 0 ≤ q) : 0 ≤ round2 q := by
  have h1 : (0 : ℚ) ≤ q * 100 := by positivity
  have h2 : (0 : ℤ) ≤ ⌊q * 100⌋ := Int.floor_nonneg.mpr h1
  unfold round2 pyRoundHalfEven
  dsimp only
  split_ifs
  · exact div_nonneg (by exact_mod_cast h2) (by norm_num)
  · refine div_nonneg ?_ (by norm_num)
    have h3 : (0 : ℤ) ≤ ⌊q * 100⌋ + 1 := by omega
    exact_mod_cast h3
  · exact div_nonneg (by exact_mod_cast h2) (by norm_num)
  · refine div_nonneg ?_ (by norm_num)
    have h3 : (0 : ℤ) ≤ ⌊q * 100⌋ + 1 := by omega
    exact_mod_cast h3

theorem calculatePageCount_nonneg (buf : List String) :
    0 ≤ calculatePageCount buf := by
  unfold calculatePageCount
  apply round2_nonneg
  positivity

theorem finalizeScene_pageCount_nonneg (st : P1State)
    (h : ∀ sc ∈ st.scenes, 0 ≤ sc.page_count) :
    ∀ sc ∈ (finalizeScene st).scenes, 0 ≤ sc.page_count := by
  unfold finalizeScene
  cases hc : st.currentScene with
  | none => exact h
  | some cs =>
    intro sc hsc
    rcases List.mem_append.mp hsc with hold | hnew
    · exact h sc hold
    · have he : sc = _ := List.mem_singleton.mp hnew
      rw [he]
      exact calculatePageCount_nonneg st.sceneBuffer

theorem pass1Final_pageCount_nonneg (lines : List String) :
    ∀ sc ∈ (pass1Final lines).scenes, 0 ≤ sc.page_count := by
  unfold pass1Final
  refine finalizeScene_pageCount_nonneg _ ?_
  refine foldl_preserves (fun st => ∀ sc ∈ st.scenes, 0 ≤ sc.page_count)
    stepLine ?_ lines initState (by simp [initState])
  intro st line hst
  have hp := stepLine_scenes_pages st line
  have hs : (stepLine st line).scenes =
      (if sceneMatchS (pyStrip line) = true then (finalizeScene st).scenes
       else st.scenes) := by
    cases hI : sceneMatchS (pyStrip line) <;> rw [hI] at hp <;> simp at hp <;>
      simp [hI, hp.1]
  rw [hs]
  cases hI : sceneMatchS (pyStrip line) with
  | false => simpa using hst
  | true =>
    simp only [if_true]
    exact finalizeScene_pageCount_nonneg st hst

theorem parse_scenes_pageCount_nonneg (ord : List String → List String)
    (script title : String) :
    ∀ sc ∈ (parseWith ord script title).scenes, 0 ≤ sc.page_count := by
  intro sc hsc
  have hrw : (parseWith ord script title).scenes =
      (scenesAfterPass2 (splitNLS script)).map
        (fun sc => { sc with characters := ord sc.characters }) := rfl
  rw [hrw] at hsc
  obtain ⟨sc₂, hsc₂, he⟩ := List.mem_map.mp hsc
  rw [← he]
  unfold scenesAfterPass2 at hsc₂
  dsimp only at hsc₂
  obtain ⟨q, hq, he₂⟩ := List.mem_map.mp hsc₂
  rw [← he₂]
  exact pass1Final_pageCount_nonneg (splitNLS script) q.1 (List.of_mem_zip hq).1

/-- C4: every parsed scene has a nonnegative page count, and the
spec-modelled duration estimate attached to it equals
max(0.5 minutes, page_count × 3 minutes per page), hence is at least
half a minute. -/
theorem scene_duration_estimate (ord : List String → List String)
    (script title : String) (i : Nat)
    (hi : i < (parseWith ord script title).scenes.length) :
    0 ≤ ((parseWith ord script title).scenes.getD i defaultScene).page_count ∧
    estimatedDurationMinutes
        ((parseWith ord script title).scenes.getD i defaultScene).page_count =
      max (1 / 2)
        (((parseWith ord script title).scenes.getD i defaultScene).page_count * 3) ∧
    (1 / 2 : ℚ) ≤ estimatedDurationMinutes
        ((parseWith ord script title).scenes.getD i defaultScene).page_count := by
  refine ⟨?_, rfl, le_max_left _ _⟩
  have hmem : (parseWith ord script title).scenes.getD i defaultScene ∈
      (parseWith ord script title).scenes := by
    rw [List.getD_eq_getElem _ _ hi]
    exact List.getElem_mem hi
  exact parse_scenes_pageCount_nonneg ord script title _ hmem

/-- C4 witness at the first scene of the sample script. -/
theorem scene_duration_estimate_witness :
    0 < (parseWith idOrd sampleScript ("T")).scenes.length ∧
    estimatedDurationMinutes
        ((parseWith idOrd sampleScript ("T")).scenes.getD 0 defaultScene).page_count =
      max (1 / 2)
        (((parseWith idOrd sampleScript ("T")).scenes.getD 0 defaultScene).page_count * 3) ∧
    (1 / 2 : ℚ) ≤ estimatedDurationMinutes
        ((parseWith idOrd sampleScript ("T")).scenes.getD 0 defaultScene).page_count := by
  have h := scene_duration_estimate idOrd sampleScript ("T") 0 (by decide)
  exact ⟨by decide, h.2.1, h.2.2⟩

/-! ### Normalization is idempotent on registered names (C9) -/

theorem dropWhile_len_le {α : Type} (p : α → Bool) (l : List α) :
    (l.dropWhile p).length ≤ l.length := by
  induction l with
  | nil => simp
  | cons a t ih =>
    rw [List.dropWhile_cons]
    split
    · simp only [List.length_cons]
      omega
    · simp

theorem dropWhile_idem {α : Type} (p : α → Bool) (l : List α) :
    (l.dropWhile p).dropWhile p = l.dropWhile p := by
  induction l with
  | nil => rfl
  | cons a t ih =>
    rw [List.dropWhile_cons]
    split
    · exact ih
    · rw [List.dropWhile_cons]
      split
      · simp_all
      · rfl

theorem dropWhile_trailing {α : Type} (p : α → Bool) (x : List α)
    (hx : x.dropWhile p = x) :
    ((x.reverse.dropWhile p).reverse).dropWhile p = (x.reverse.dropWhile p).reverse := by
  cases x with
  | nil => simp
  | cons a t =>
    have hpa : p a = false := by
      by_contra hpa
      have hpa' : p a = true := by
        cases h' : p a
        · exact absurd h' hpa
        · rfl
      rw [List.dropWhile_cons, if_pos hpa'] at hx
      have h1 : (t.dropWhile p).length = t.length + 1 := by rw [hx]; simp
      have h2 := dropWhile_len_le p t
      omega
    cases hy : (a :: t).reverse.dropWhile p with
    | nil => simp [hy]
    | cons b bt =>
      obtain ⟨s, hs⟩ := List.dropWhile_suffix (l := (a :: t).reverse) p
      rw [hy] at hs
      have hsrev : (b :: bt).reverse ++ s.reverse = a :: t := by
        rw [← List.reverse_append, hs, List.reverse_reverse]
      rw [← hy]
      cases hyr : ((a :: t).reverse.dropWhile p).reverse with
      | nil => rfl
      | cons c ct =>
        have hca : c = a := by
          rw [hy] at hyr
          rw [hyr] at hsrev
          rw [List.cons_append] at hsrev
          exact (List.cons.injEq _ _ _ _ ▸ hsrev).1
        rw [List.dropWhile_cons, hca, hpa]
        simp

theorem pyStripL_idem (l : List Char) : pyStripL (pyStripL l) = pyStripL l := by
  unfold pyStripL
  have hA : (l.dropWhile isSpacePy).dropWhile isSpacePy = l.dropWhile isSpacePy :=
    dropWhile_idem isSpacePy l
  have hC := dropWhile_trailing isSpacePy (l.dropWhile isSpacePy) hA
  rw [hC, List.reverse_reverse, dropWhile_idem]

theorem pyStrip_idem (s : String) : pyStrip (pyStrip s) = pyStrip s := by
  unfold pyStrip
  exact congrArg String.mk (pyStripL_idem s.data)

theorem rpAux_no_paren (l : List Char) (h : ('(') ∉ l) : rpAux false l = l := by
  induction l with
  | nil => rfl
  | cons c t ih =>
    have hc : c ≠ '(' := fun he => h (he ▸ List.mem_cons_self c t)
    have ht : ('(') ∉ t := fun hm => h (List.mem_cons_of_mem c hm)
    unfold rpAux
    have hcond : (c = '(' && t.contains ')') = false := by
      cases hd : decide (c = '(') with
      | true => exact absurd (of_decide_eq_true hd) hc
      | false => simp [hd]
    rw [hcond]
    simp [ih ht]

theorem charPatternMatchL_no_paren (l : List Char)
    (h : charPatternMatchL l = true) : ('(') ∉ l := by
  cases l with
  | nil => simp
  | cons c t =>
    simp only [charPatternMatchL, Bool.and_eq_true, List.all_eq_true] at h
    intro hm
    rcases List.mem_cons.mp hm with hc | ht
    · rw [← hc] at h
      exact absurd h.1.1 (by decide)
    · have := h.2 _ ht
      exact absurd this (by decide)

theorem normalizeCharacterName_fix (s : String)
    (h : charPatternMatchL (pyStripL (removeParensL s.data)) = true) :
    normalizeCharacterName (normalizeCharacterName s) = normalizeCharacterName s := by
  have hnp : ('(') ∉ pyStripL (removeParensL s.data) := charPatternMatchL_no_paren _ h
  show String.mk (pyStripL (removeParensL (pyStripL (removeParensL s.data)))) = _
  rw [show removeParensL (pyStripL (removeParensL s.data)) =
        pyStripL (removeParensL s.data) from rpAux_no_paren _ hnp,
      pyStripL_idem]
  rfl

theorem isCharacterName_case (s : String) (h : isCharacterName s = true) :
    charPatternMatchL (pyStripL (removeParensL (pyStrip s).data)) = true := by
  unfold isCharacterName at h
  dsimp only at h
  simp only [Bool.and_eq_true] at h
  exact h.1.1.1.1.1.2

theorem normFix_of_registered (line : String)
    (h : isCharacterName (pyStrip line) = true) :
    NormFix (normalizeCharacterName (pyStrip line)) := by
  have hc := isCharacterName_case (pyStrip line) h
  rw [pyStrip_idem line] at hc
  exact normalizeCharacterName_fix (pyStrip line) hc

theorem mem_insertUnique_left (l : List String) (x a : String) (h : a ∈ l) :
    a ∈ insertUnique l x := by
  unfold insertUnique
  split
  · exact h
  · exact List.mem_append.mpr (Or.inl h)

theorem mem_insertUnique_self (l : List String) (x : String) :
    x ∈ insertUnique l x := by
  unfold insertUnique
  split
  · exact List.elem_iff.mp (by assumption)
  · exact List.mem_append.mpr (Or.inr (by simp))

theorem mem_of_mem_insertUnique (l : List String) (x a : String)
    (h : a ∈ insertUnique l x) : a ∈ l ∨ a = x := by
  unfold insertUnique at h
  split at h
  · exact Or.inl h
  · rcases List.mem_append.mp h with hl | hr
    · exact Or.inl hl
    · exact Or.inr (by simpa using hr)

theorem nodup_insertUnique (l : List String) (x : String) (h : l.Nodup) :
    (insertUnique l x).Nodup := by
  unfold insertUnique
  split
  · exact h
  · refine h.append (by simp) ?_
    intro a hal hax
    have hx : a = x := by simpa using hax
    subst hx
    have : l.contains a = true := List.elem_iff.mpr hal
    simp_all

theorem CharNormInv_finalize (st : P1State) (h : CharNormInv st) :
    CharNormInv (finalizeScene st) := by
  obtain ⟨h1, h2⟩ := h
  unfold CharNormInv finalizeScene
  cases hc : st.currentScene with
  | none => exact ⟨h1, h2⟩
  | some cs =>
    refine ⟨h1, ?_⟩
    intro sc hsc c hcc
    rcases List.mem_append.mp hsc with hold | hnew
    · exact h2 sc hold c hcc
    · have he : sc = _ := List.mem_singleton.mp hnew
      rw [he] at hcc
      exact h1 c hcc

theorem CharNormInv_step (st : P1State) (line : String) (h : CharNormInv st) :
    CharNormInv (stepLine st line) := by
  unfold stepLine
  dsimp only
  cases hI : sceneMatchS (pyStrip line) with
  | false =>
    simp only [Bool.false_eq_true, if_false]
    cases hc : st.currentScene with
    | none =>
      simp only [hc]
      cases hb : st.inFirstScene && isCharacterName (pyStrip line) with
      | false => simpa [hb] using h
      | true =>
        simp only [hb, if_true]
        have hreg : isCharacterName (pyStrip line) = true :=
          (Bool.and_eq_true .. ▸ hb).2
        refine ⟨?_, h.2⟩
        intro c hcc
        rcases mem_of_mem_insertUnique _ _ _ hcc with hold | hnew
        · exact h.1 c hold
        · rw [hnew]
          exact normFix_of_registered line hreg
    | some cs =>
      simp only [hc]
      cases hb : st.inFirstScene && isCharacterName (pyStrip line) with
      | false => simpa [hb] using h
      | true =>
        simp only [hb, if_true]
        have hreg : isCharacterName (pyStrip line) = true :=
          (Bool.and_eq_true .. ▸ hb).2
        refine ⟨?_, h.2⟩
        intro c hcc
        rcases mem_of_mem_insertUnique _ _ _ hcc with hold | hnew
        · exact h.1 c hold
        · rw [hnew]
          exact normFix_of_registered line hreg
  | true =>
    simp only [if_true]
    have hfin := CharNormInv_finalize st h
    cases hb : (true && isCharacterName (pyStrip line)) with
    | false =>
      simp only [hb, Bool.false_eq_true, if_false]
      exact ⟨by simp, hfin.2⟩
    | true =>
      simp only [hb, if_true]
      have hreg : isCharacterName (pyStrip line) = true := by simpa using hb
      refine ⟨?_, hfin.2⟩
      intro c hcc
      dsimp only at hcc
      rcases mem_of_mem_insertUnique _ _ _ hcc with hold | hnew
      · exact absurd hold (by simp)
      · rw [hnew]
        exact normFix_of_registered line hreg

theorem CharNormInv_pass1Final (lines : List String) :
    CharNormInv (pass1Final lines) := by
  unfold pass1Final
  refine CharNormInv_finalize _ ?_
  exact foldl_preserves CharNormInv stepLine
    (fun s a hs => CharNormInv_step s a hs) lines initState
    ⟨by simp [initState], by simp [initState]⟩

/-! ### The second pass only adds (C9) -/

theorem mem_foldl_insertUnique (l : List String) :
    ∀ (acc : List String) (a : String), (a ∈ acc ∨ a ∈ l) →
      a ∈ l.foldl insertUnique acc := by
  induction l with
  | nil =>
    intro acc a h
    simpa using h
  | cons b t ih =>
    intro acc a h
    rw [List.foldl_cons]
    rcases h with hacc | hbt
    · exact ih _ a (Or.inl (mem_insertUnique_left _ _ _ hacc))
    · rcases List.mem_cons.mp hbt with hab | hat
      · exact ih _ a (Or.inl (hab ▸ mem_insertUnique_self acc b))
      · exact ih _ a (Or.inr hat)

theorem nodup_foldl_insertUnique (l : List String) :
    ∀ acc : List String, acc.Nodup → (l.foldl insertUnique acc).Nodup := by
  induction l with
  | nil => intro acc h; simpa using h
  | cons b t ih =>
    intro acc h
    rw [List.foldl_cons]
    exact ih _ (nodup_insertUnique acc b h)

theorem mem_dedupInto (l : List String) (a : String) (h : a ∈ l) :
    a ∈ dedupInto l :=
  mem_foldl_insertUnique l [] a (Or.inr h)

theorem nodup_dedupInto (l : List String) : (dedupInto l).Nodup :=
  nodup_foldl_insertUnique l [] (by simp)

theorem mem_pass2Chars (characterList chars : List String) (sceneText : String)
    (c : String) (hfix : NormFix c) (hc : c ∈ chars) :
    c ∈ pass2Chars characterList chars sceneText := by
  unfold pass2Chars
  dsimp only
  have h0 : c ∈ dedupInto (chars.map normalizeCharacterName) := by
    refine mem_dedupInto _ _ ?_
    have := List.mem_map_of_mem normalizeCharacterName hc
    rwa [hfix] at this
  revert h0
  generalize dedupInto (chars.map normalizeCharacterName) = acc
  intro h0
  induction characterList generalizing acc with
  | nil => simpa using h0
  | cons b t ih =>
    rw [List.foldl_cons]
    split
    · exact ih _ h0
    · split
      · exact ih _ (List.mem_append.mpr (Or.inl h0))
      · exact ih _ h0

theorem nodup_pass2Chars (characterList chars : List String) (sceneText : String) :
    (pass2Chars characterList chars sceneText).Nodup := by
  unfold pass2Chars
  dsimp only
  have h0 := nodup_dedupInto (chars.map normalizeCharacterName)
  revert h0
  generalize dedupInto (chars.map normalizeCharacterName) = acc
  intro h0
  induction characterList generalizing acc with
  | nil => simpa using h0
  | cons b t ih =>
    rw [List.foldl_cons]
    split
    · exact ih _ h0
    · split
      · refine ih _ ?_
        refine h0.append (by simp) ?_
        intro a hal hax
        have hx : a = b := by simpa using hax
        subst hx
        have : acc.contains a = true := List.elem_iff.mpr hal
        simp_all
      · exact ih _ h0

/-- C9: the second pass is a monotone idempotent union: every
(character, scene) pair recorded by the cue-detection pass is still
present after the mention-scan pass, and the resulting scene character
list holds no duplicates. -/
theorem pass2_monotone_union (ord : List String → List String) (h : Admissible ord)
    (script title : String) (i : Nat)
    (hi : i < (parseWith ord script title).scenes.length)
    (hi1 : i < (pass1Final (splitNLS script)).scenes.length) :
    (∀ c ∈ ((pass1Final (splitNLS script)).scenes.getD i defaultScene).characters,
      c ∈ ((parseWith ord script title).scenes.getD i defaultScene).characters) ∧
    ((parseWith ord script title).scenes.getD i defaultScene).characters.Nodup := by
  have hnorm := (CharNormInv_pass1Final (splitNLS script)).2
  have hmap : (parseWith ord script title).scenes =
      (scenesAfterPass2 (splitNLS script)).map
        (fun sc => { sc with characters := ord sc.characters }) := rfl
  have hiz : i < (scenesAfterPass2 (splitNLS script)).length := by
    rw [hmap, List.length_map] at hi
    exact hi
  have hz : scenesAfterPass2 (splitNLS script) =
      (((pass1Final (splitNLS script)).scenes.zip
        (pass1Final (splitNLS script)).sceneBuffers).map
        (fun p =>
          { p.1 with
            characters := pass2Chars (allCharsNorm (splitNLS script))
                            p.1.characters (String.intercalate (" ") p.2) })) := rfl
  have hizip : i < (((pass1Final (splitNLS script)).scenes.zip
      (pass1Final (splitNLS script)).sceneBuffers)).length := by
    rw [hz, List.length_map] at hiz
    exact hiz
  have hB : i < (pass1Final (splitNLS script)).sceneBuffers.length := by
    rw [List.length_zip] at hizip
    omega
  have e1 : (parseWith ord script title).scenes.getD i defaultScene =
      { (scenesAfterPass2 (splitNLS script)).getD i defaultScene with
          characters :=
            ord ((scenesAfterPass2 (splitNLS script)).getD i defaultScene).characters } := by
    rw [List.getD_eq_getElem _ _ hi]
    rw [List.getD_eq_getElem _ _ hiz]
    simp only [hmap, List.getElem_map]
  have e2 : (scenesAfterPass2 (splitNLS script)).getD i defaultScene =
      { ((pass1Final (splitNLS script)).scenes.get ⟨i, hi1⟩) with
          characters :=
            pass2Chars (allCharsNorm (splitNLS script))
              ((pass1Final (splitNLS script)).scenes.get ⟨i, hi1⟩).characters
              (String.intercalate (" ")
                ((pass1Final (splitNLS script)).sceneBuffers.get ⟨i, hB⟩)) } := by
    rw [List.getD_eq_getElem _ _ hiz]
    simp only [hz, List.getElem_map, List.getElem_zip, List.get_eq_getElem]
  have e3 : (pass1Final (splitNLS script)).scenes.getD i defaultScene =
      (pass1Final (splitNLS script)).scenes.get ⟨i, hi1⟩ := by
    rw [List.getD_eq_getElem _ _ hi1]
    rfl
  rw [e1, e2, e3]
  dsimp only
  constructor
  · intro c hc
    have hfix : NormFix c := by
      refine hnorm _ ?_ c hc
      exact List.get_mem _ _ _
    have hin : c ∈ pass2Chars (allCharsNorm (splitNLS script))
        ((pass1Final (splitNLS script)).scenes.get ⟨i, hi1⟩).characters
        (String.intercalate (" ")
          ((pass1Final (splitNLS script)).sceneBuffers.get ⟨i, hB⟩)) :=
      mem_pass2Chars _ _ _ c hfix hc
    exact ((h _).mem_iff).mpr hin
  · exact ((h _).nodup_iff).mpr (nodup_pass2Chars _ _ _)

/-- C9 witness at the sample script, scene one. -/
theorem pass2_monotone_union_witness :
    Admissible idOrd ∧
    (∀ c ∈ ((pass1Final (splitNLS sampleScript)).scenes.getD 0 defaultScene).characters,
      c ∈ ((parseWith idOrd sampleScript ("T")).scenes.getD 0 defaultScene).characters) ∧
    ((parseWith idOrd sampleScript ("T")).scenes.getD 0 defaultScene).characters.Nodup :=
  ⟨admissible_idOrd,
   (pass2_monotone_union idOrd admissible_idOrd sampleScript ("T") 0
      (by decide) (by decide)).1,
   (pass2_monotone_union idOrd admissible_idOrd sampleScript ("T") 0
      (by decide) (by decide)).2⟩

/-- C10 witness: the cue-like line JOHN on the title page is dropped
and the parsed characters come only from inside scenes. -/
theorem preheading_lines_ignored_witness :
    parseLinesWith idOrd [("JOHN"), ("INT. A - DAY"), ("JANE"), ("hi")] ("T") =
      parseLinesWith idOrd [("INT. A - DAY"), ("JANE"), ("hi")] ("T") ∧
    (parseLinesWith idOrd [("INT. A - DAY"), ("JANE"), ("hi")] ("T")).all_characters =
      [("JANE")] :=
  ⟨preheading_lines_ignored idOrd ("T") [("JOHN")]
      [("INT. A - DAY"), ("JANE"), ("hi")] (by decide),
   by decide⟩

end Slate
